import Mathlib

/-!
Verification development for the iterative rule synthesis & evaluation engine
(`claude-chatbot` backend).  Shallow embedding of the TypeScript sources:

* `src/backend/services/rules-executor.ts`   — compliance evaluation
* `src/backend/services/iterative-pipeline.ts` — refinement loop / ingestion
* `src/unnamed/part_003`                     — DaytonaValidator + RulesStorage
* `src/unnamed/part_004`                     — demo employee lookup

External effects (the Python bridge, the Daytona sandbox, the LLM, the clock)
are modelled as explicit oracle parameters; file-system effects are modelled
as an explicit state plus a trace of file-system operations.
-/

set_option maxRecDepth 4096

namespace Chatbot

/-- One validation pass, from the `ValidationAttempt` shape used by
`iterative-pipeline.ts` (the repository's `types/index.ts` is not present
under `src/`; the field list is taken from the fields the pipeline writes,
matching the spec's data model).  The source field `synta` ++ `x_error` is
named `syn_error` here. -/
structure ValidationAttempt where
  attempt_number : Nat
  passed : Bool
  error : Option String := none
  test_output : Option String := none
  feedback_to_llm : Option String := none
  timestamp : String := ""
deriving DecidableEq, Repr

/-- A generated rule, from the fields read and written by
`iterative-pipeline.ts`, `rules-executor.ts` and the spec's data model
(`types/index.ts` is not under `src/`). -/
structure Rule where
  rule_id : String
  rule_name : String
  description : String := ""
  policy_reference : String
  applies_to_roles : List String
  python_code : String
  active : Bool := true
  generation_attempt : Nat := 0
  validation_history : List ValidationAttempt := []
deriving DecidableEq, Repr

/-- The employee record as consumed by `rules-executor.ts`: only `role` is
inspected by the evaluator; all other fields are passed through opaquely to
the rule code (modelled by `rest`). -/
structure Employee where
  id : String
  role : String
  rest : List (String × String) := []
deriving DecidableEq, Repr

/-- The per-firm persisted bundle, from `RulesStorage.saveRules`
(`src/unnamed/part_003`). -/
structure RulesData where
  firm_name : String
  policy_version : String
  last_updated : String
  generated_by_llm : Bool
  total_iterations : Nat
  rules : List Rule
deriving DecidableEq, Repr

/-- Shape `ComplianceResult` as built by `RulesExecutor.checkCompliance`. -/
structure ComplianceResult where
  allowed : Bool
  reasons : List String
  policy_refs : List String
  rules_checked : List String
deriving DecidableEq, Repr

/-- A single rule execution's parsed result (`RuleExecutionResult` in
`rules-executor.ts`): required boolean `allowed`, optional string `reason`. -/
structure RuleExecutionResult where
  allowed : Bool
  reason : Option String := none
deriving DecidableEq, Repr

/-- JSON values, for modelling what `JSON.parse` hands back to
`executeRule`. -/
inductive JsonVal where
  | null
  | bool (b : Bool)
  | num (n : Int)
  | str (s : String)
  | arr (xs : List JsonVal)
  | obj (fields : List (String × JsonVal))

/-- JavaScript property access `base.prop` on a parsed JSON value: reading a
property of `null` throws a `TypeError`; reading an absent property of any
other value yields `undefined` (modelled as `none`). -/
def jsGetProp : JsonVal → String → Except String (Option JsonVal)
  | JsonVal.null, p =>
      Except.error ("Cannot read properties of null (reading \x27" ++ p ++ "\x27)")
  | JsonVal.obj fields, p => Except.ok (fields.lookup p)
  | _, _ => Except.ok none

/-- Outcome of one `runPythonCode` invocation as seen by `executeRule`
(`rules-executor.ts` lines 99-115): either the bridge rejected (spawn error,
timeout, non-zero exit — all surfaced as a thrown `Error` with a message), or
it resolved with stdout, which `JSON.parse` either fails on (`none`) or turns
into a JSON value. -/
inductive PyOutcome where
  | fail (msg : String)
  | out (parsed : Option JsonVal)

/-- Embedding of `RulesExecutor.executeRule` (`rules-executor.ts` lines 93-123), given the
bridge outcome: transport failures re-throw, non-JSON stdout throws
"Python bridge returned invalid JSON", a result whose `allowed` property is
not a boolean throws "Rule result missing boolean 'allowed'"; otherwise the
parsed result is returned (its `reason` property kept when it is a string). -/
def executeRule (outcome : PyOutcome) : Except String RuleExecutionResult :=
  match outcome with
  | PyOutcome.fail msg => Except.error msg
  | PyOutcome.out none => Except.error "Python bridge returned invalid JSON"
  | PyOutcome.out (some v) =>
      match jsGetProp v "allowed" with
      | Except.error msg => Except.error msg
      | Except.ok (some (JsonVal.bool b)) =>
          match jsGetProp v "reason" with
          | Except.ok (some (JsonVal.str s)) => Except.ok { allowed := b, reason := some s }
          | _ => Except.ok { allowed := b, reason := none }
      | Except.ok _ => Except.error "Rule result missing boolean \x27allowed\x27"

/-- JavaScript truthiness of an optional string (`undefined` and `""` are
falsy). -/
def isTruthy : Option String → Bool
  | none => false
  | some s => !(s == "")

/-- The body of the `for` loop of `RulesExecutor.checkCompliance`
(`rules-executor.ts` lines 53-88) for one rule: skip inactive rules, skip
rules whose non-empty `applies_to_roles` does not contain the employee's
role, otherwise record the rule name, run the rule (`run` abstracts
`executeRule` applied to this rule, the employee, the security and the trade
date through the Python bridge) and fold its outcome into the accumulated
verdict exactly as the source's `try`/`catch` does. -/
def stepRule (run : Rule → Except String RuleExecutionResult) (employee : Employee)
    (acc : ComplianceResult) (rule : Rule) : ComplianceResult :=
  if rule.active = false then acc
  else if rule.applies_to_roles.length > 0 && !(rule.applies_to_roles.contains employee.role) then
    acc
  else
    let acc1 : ComplianceResult :=
      { acc with rules_checked := acc.rules_checked ++ [rule.rule_name] }
    match run rule with
    | Except.ok execution =>
        if execution.allowed = false then
          { acc1 with
              allowed := false,
              reasons := acc1.reasons ++
                (if isTruthy execution.reason then [execution.reason.getD ""] else []),
              policy_refs := acc1.policy_refs ++ [rule.policy_reference] }
        else acc1
    | Except.error msg =>
        { acc1 with
            allowed := false,
            reasons := acc1.reasons ++
              ["Rule " ++ rule.rule_name ++ " execution failed: " ++ msg],
            policy_refs := acc1.policy_refs ++ [rule.policy_reference] }

/-- Embedding of `RulesExecutor.checkCompliance` (`rules-executor.ts` lines 35-91), given
the bundle loaded for the firm (`none` when `loadRules` found nothing) and
the per-rule execution oracle. -/
def checkCompliance (run : Rule → Except String RuleExecutionResult) (employee : Employee)
    (stored : Option RulesData) : ComplianceResult :=
  match stored with
  | none => { allowed := true, reasons := [], policy_refs := [], rules_checked := [] }
  | some bundle =>
      bundle.rules.foldl (stepRule run employee)
        { allowed := true, reasons := [], policy_refs := [], rules_checked := [] }

/-- The claim's invocation condition: a rule is invoked exactly when it is
active and its `applies_to_roles` is empty or contains the employee's role
(exact string match). -/
def ruleInvoked (employee : Employee) (rule : Rule) : Bool :=
  rule.active && (rule.applies_to_roles.isEmpty || rule.applies_to_roles.contains employee.role)

/-- A rule blocks the trade when its execution either raised or returned
`allowed = false`. -/
def ruleBlocks (run : Rule → Except String RuleExecutionResult) (rule : Rule) : Bool :=
  match run rule with
  | Except.error _ => true
  | Except.ok execution => !execution.allowed

/-- Whether the execution oracle raises for a rule. -/
def isExecError (r : Except String RuleExecutionResult) : Bool :=
  match r with
  | Except.error _ => true
  | Except.ok _ => false

/-- Whether some invoked (active and role-applicable) rule of the list raised
during execution. -/
def anyInvokedRuleRaised (run : Rule → Except String RuleExecutionResult)
    (employee : Employee) (rules : List Rule) : Bool :=
  rules.any (fun r => ruleInvoked employee r && isExecError (run r))

/-- The rules of an optionally-loaded bundle. -/
def rulesOf : Option RulesData → List Rule
  | none => []
  | some bundle => bundle.rules

/-- Shape `ValidationResult` as produced by `DaytonaValidator.validateRule`
(`src/unnamed/part_003`): a `passed` flag plus at most one populated detail
field.  The source field `synta` ++ `x_error` is named `syn_error` here. -/
structure ValidationResult where
  passed : Bool
  error : Option String := none
  syn_error : Option String := none
  runtime_error : Option String := none
  test_failure : Option String := none
  security_issue : Option String := none
  test_output : Option String := none
deriving DecidableEq, Repr

/-- The JavaScript chain `a || b || ...` over optional strings: the first
truthy (present and non-empty) value, `none` when every operand is falsy. -/
def firstTruthy : List (Option String) → Option String
  | [] => none
  | x :: rest => if isTruthy x then x else firstTruthy rest

/-- Embedding of `createFeedbackForLLM` (`iterative-pipeline.ts` lines 139-168). -/
def createFeedbackForLLM (v : ValidationResult) : String :=
  let feedback : List String :=
    (if isTruthy v.syn_error then ["Fix syntax issues: " ++ v.syn_error.getD ""] else []) ++
    (if isTruthy v.runtime_error then ["Runtime failure: " ++ v.runtime_error.getD ""] else []) ++
    (if isTruthy v.test_failure then ["Logical/test failure: " ++ v.test_failure.getD ""] else []) ++
    (if isTruthy v.security_issue then ["Security violation: " ++ v.security_issue.getD ""] else [])
  let feedback :=
    if isTruthy v.error && feedback.length == 0 then
      feedback ++ ["General validation error: " ++ v.error.getD ""]
    else feedback
  let joined := String.intercalate " " feedback
  if joined == "" then
    "Validation failed for unspecified reasons. Re-check rule robustness."
  else joined

/-- The consolidated error of a validation result, as composed in
`iterative-pipeline.ts` lines 76-81 (`error || syntax_error || runtime_error
|| test_failure || security_issue`). -/
def consolidatedError (v : ValidationResult) : Option String :=
  firstTruthy [v.error, v.syn_error, v.runtime_error, v.test_failure, v.security_issue]

/-- The `ValidationAttempt` history entry pushed for attempt `n`
(`iterative-pipeline.ts` lines 73-87).  `ts` is the clock oracle for
`new Date().toISOString()`. -/
def mkHistoryEntry (ts : Nat → String) (n : Nat) (v : ValidationResult) : ValidationAttempt :=
  { attempt_number := n,
    passed := v.passed,
    error := consolidatedError v,
    test_output := v.test_output,
    feedback_to_llm := if v.passed then none else some (createFeedbackForLLM v),
    timestamp := ts n }

/-- The regeneration context built after a failed attempt
(`iterative-pipeline.ts` lines 98-112). -/
structure GenerationContext where
  policy_text : String
  firm_name : String
  prev_code : String
  prev_error : String
  prev_test_results : String
deriving DecidableEq, Repr

/-- Result of `validateAndRefineRule` (`ValidationLoopResult` in
`iterative-pipeline.ts`). -/
structure LoopResult where
  validated : Bool
  rule : Rule
  iterations : Nat
deriving DecidableEq, Repr

/-- The `while` loop of `IterativePipeline.validateAndRefineRule`
(`iterative-pipeline.ts` lines 66-133), as fuel recursion: `remaining` is
`maxIterationsPerRule - attempt`, so the loop guard `attempt <
maxIterationsPerRule` is `remaining > 0`.  `validator` and `regen` are the
oracles for `DaytonaValidator.validateRule` and
`LLMGenerator.regenerateRule`, indexed by the attempt number of the call
performing them; `ts` is the clock.  The second component of the result
counts the validator calls performed. -/
def refineGo (validator : Nat → Rule → ValidationResult)
    (regen : Nat → GenerationContext → List Rule) (ts : Nat → String)
    (initialRuleId policyText firmName : String) :
    Rule → Nat → Nat → LoopResult × Nat
  | rule, attempt, 0 => ({ validated := false, rule := rule, iterations := attempt }, 0)
  | rule, attempt, rem + 1 =>
      let attempt1 := attempt + 1
      let cur0 : Rule := { rule with generation_attempt := attempt1 }
      let vres := validator attempt1 cur0
      let cur : Rule :=
        { cur0 with validation_history :=
            cur0.validation_history ++ [mkHistoryEntry ts attempt1 vres] }
      if vres.passed then
        ({ validated := true, rule := cur, iterations := attempt1 }, 1)
      else if rem = 0 then
        ({ validated := false, rule := cur, iterations := attempt1 }, 1)
      else
        let ctx : GenerationContext :=
          { policy_text := policyText,
            firm_name := firmName,
            prev_code := cur.python_code,
            prev_error := (consolidatedError vres).getD "Unknown validation error",
            prev_test_results := vres.test_output.getD "No test output" }
        match regen attempt1 ctx with
        | [] => ({ validated := false, rule := cur, iterations := attempt1 }, 1)
        | next :: _ =>
            let r :=
              refineGo validator regen ts initialRuleId policyText firmName
                { next with
                    rule_id := initialRuleId,
                    validation_history := cur.validation_history,
                    generation_attempt := attempt1 }
                attempt1 rem
            (r.1, r.2 + 1)

/-- Embedding of `IterativePipeline.validateAndRefineRule` (`iterative-pipeline.ts` lines
60-136): start from the initial rule with an empty history at attempt 0 with
the full iteration budget.  Returns the loop result paired with the number
of validator calls performed. -/
def validateAndRefineRule (validator : Nat → Rule → ValidationResult)
    (regen : Nat → GenerationContext → List Rule) (ts : Nat → String)
    (maxIterationsPerRule : Nat) (initialRule : Rule)
    (policyText firmName : String) : LoopResult × Nat :=
  refineGo validator regen ts initialRule.rule_id policyText firmName
    { initialRule with validation_history := [] } 0 maxIterationsPerRule

/-- The default of the `maxIterationsPerRule` option
(`iterative-pipeline.ts` line 26: `options?.maxIterationsPerRule ?? 5`). -/
def defaultMaxIterationsPerRule : Nat := 5

/-- The per-draft loop of `IterativePipeline.processPolicy`
(`iterative-pipeline.ts` lines 39-55): refine each initial rule in order,
keep the validated ones in order, and sum the iteration counts. -/
def runRules (validator : Nat → Rule → ValidationResult)
    (regen : Nat → GenerationContext → List Rule) (ts : Nat → String)
    (maxIterationsPerRule : Nat) (policyText firmName : String) :
    List Rule → List Rule × Nat
  | [] => ([], 0)
  | r :: rest =>
      let res := validateAndRefineRule validator regen ts maxIterationsPerRule r
        policyText firmName
      let tail := runRules validator regen ts maxIterationsPerRule policyText firmName rest
      ((if res.1.validated then [res.1.rule] else []) ++ tail.1,
       res.1.iterations + tail.2)

/-- JavaScript `String.prototype.trim` (modelled on `Char.isWhitespace`). -/
def jsTrim (s : String) : String :=
  String.mk (((s.data.dropWhile Char.isWhitespace).reverse.dropWhile Char.isWhitespace).reverse)

/-- JavaScript `String.prototype.toUpperCase` (ASCII model). -/
def jsToUpper (s : String) : String :=
  String.mk (s.data.map Char.toUpper)

/-- JavaScript `String.prototype.toLowerCase` (ASCII model). -/
def jsToLower (s : String) : String :=
  String.mk (s.data.map Char.toLower)

/-- Collapse each maximal run of whitespace to a single underscore, the
effect of `.replace(/\s+/g, "_")` in `normalizeFirmName`
(`src/unnamed/part_003`).  The flag records whether the previous character
was whitespace (inside a run already replaced). -/
def collapseWsAux : Bool → List Char → List Char
  | _, [] => []
  | inWs, c :: rest =>
      if c.isWhitespace then
        (if inWs then [] else ['_']) ++ collapseWsAux true rest
      else c :: collapseWsAux false rest

/-- Embedding of `normalizeFirmName` (`src/unnamed/part_003` lines 299-301):
`firmName.trim().toLowerCase().replace(/\s+/g, "_")`. -/
def normalizeFirmName (firmName : String) : String :=
  String.mk (collapseWsAux false (jsToLower (jsTrim firmName)).data)

/-- Embedding of `RulesStorage.getFilePath` (`src/unnamed/part_003` lines 353-356):
`join(rulesDir, normalizeFirmName(firmName) + "_rules.json")`. -/
def getFilePath (rulesDir firmName : String) : String :=
  rulesDir ++ "/" ++ normalizeFirmName firmName ++ "_rules.json"

/-- Node's `dirname`: the path up to the last separator (modelled for the
separator-containing paths produced by `getFilePath`). -/
def dirnameOf (p : String) : String :=
  String.mk (((p.data.reverse.dropWhile (fun c => c != '/')).drop 1).reverse)

/-- A file-system operation performed by `RulesStorage`.  Document contents
are carried as the structured bundle (serialization `JSON.stringify(data,
null, 2)` is injective on this model and not itself under scrutiny). -/
inductive FsOp where
  | mkdir (path : String)
  | write (path : String) (doc : RulesData)
  | rename (src dst : String)
deriving DecidableEq, Repr

/-- Number of rename operations in a trace. -/
def countRenames (trace : List FsOp) : Nat :=
  (trace.filter (fun op => match op with | FsOp.rename _ _ => true | _ => false)).length

/-- The mutable state of a `RulesStorage` instance: the in-memory cache
keyed by the original firm name, and the disk contents keyed by file path.
Both are association lists where an insert prepends (the most recent binding
wins on lookup, matching `Map.set` / overwriting a file). -/
structure StorageState where
  cache : List (String × RulesData)
  disk : List (String × RulesData)

/-- The `RulesData` document assembled by `RulesStorage.saveRules`
(`src/unnamed/part_003` lines 317-328).  `now` and `policyVersion` stand for
`new Date().toISOString()` and the `YYYY-MM` stamp derived from the clock. -/
def mkRulesData (firmName : String) (rules : List Rule) (totalIterations : Nat)
    (now policyVersion : String) : RulesData :=
  { firm_name := firmName,
    policy_version := policyVersion,
    last_updated := now,
    generated_by_llm := true,
    total_iterations := totalIterations,
    rules := rules }

/-- Embedding of `RulesStorage.saveRules` (`src/unnamed/part_003` lines 312-335): build
the document, ensure the directory of the file path exists, write the
serialized document directly to the file path (`Bun.write`), update the
cache under the original firm name, and return the document.  The third
component is the trace of file-system operations performed. -/
def saveRules (st : StorageState) (rulesDir firmName : String) (rules : List Rule)
    (totalIterations : Nat) (now policyVersion : String) :
    RulesData × StorageState × List FsOp :=
  let data := mkRulesData firmName rules totalIterations now policyVersion
  let filePath := getFilePath rulesDir firmName
  (data,
   { cache := (firmName, data) :: st.cache, disk := (filePath, data) :: st.disk },
   [FsOp.mkdir (dirnameOf filePath), FsOp.write filePath data])

/-- Embedding of `RulesStorage.loadRules` (`src/unnamed/part_003` lines 337-351): return
the cached document when the cache holds the firm name; otherwise read the
file at the firm's path (`none` when it does not exist), cache and return
it. -/
def loadRules (st : StorageState) (rulesDir firmName : String) :
    Option RulesData × StorageState :=
  match st.cache.lookup firmName with
  | some data => (some data, st)
  | none =>
      match st.disk.lookup (getFilePath rulesDir firmName) with
      | none => (none, st)
      | some parsed => (some parsed, { st with cache := (firmName, parsed) :: st.cache })

/-- Embedding of `IterativePipeline.processPolicy` (`iterative-pipeline.ts` lines 29-58):
refine every initially generated rule, then persist the validated rules via
`RulesStorage.saveRules`.  `initialRules` is the oracle value of
`llmGenerator.generateRules`. -/
def processPolicy (validator : Nat → Rule → ValidationResult)
    (regen : Nat → GenerationContext → List Rule) (ts : Nat → String)
    (maxIterationsPerRule : Nat) (st : StorageState) (rulesDir : String)
    (initialRules : List Rule) (policyText firmName : String)
    (now policyVersion : String) : RulesData × StorageState × List FsOp :=
  let acc := runRules validator regen ts maxIterationsPerRule policyText firmName initialRules
  saveRules st rulesDir firmName acc.1 acc.2 now policyVersion

/-- The static denylist `DANGEROUS_SNIPPETS` (`src/unnamed/part_003` lines
9-20). -/
def DANGEROUS_SNIPPETS : List String :=
  ["import os",
   "import subprocess",
   "from subprocess",
   "open(",
   "exec(",
   "eval(",
   "__import__",
   "os.system",
   "sys.stdout",
   "sys.stderr"]

/-- Substring containment on character lists (`String.prototype.includes`). -/
def listIsSubstr (needle hay : List Char) : Bool :=
  hay.tails.any (fun t => needle.isPrefixOf t)

/-- The result of `DaytonaValidator.checkSecurity`. -/
structure SecurityCheck where
  safe : Bool
  reason : Option String := none
deriving DecidableEq, Repr

/-- Embedding of `DaytonaValidator.checkSecurity` (`src/unnamed/part_003` lines 45-57):
lowercase the code and report the first denylist snippet it contains. -/
def checkSecurity (code : String) : SecurityCheck :=
  let lowerCode := jsToLower code
  match DANGEROUS_SNIPPETS.find? (fun s => listIsSubstr (jsToLower s).data lowerCode.data) with
  | some snippet => { safe := false, reason := some ("Code contains insecure pattern: " ++ snippet) }
  | none => { safe := true }

/-- Oracle for the sandbox-dependent phases of `DaytonaValidator.validateRule`:
sandbox creation (which may throw), the `checkSyn` ++ `tax` phase outcome for
a code string (`passed`, optional error), and the `runTests` phase outcome
for a rule. -/
structure SandboxBehavior where
  create : Except String Nat
  checkSyn : String → Bool × Option String
  runTests : Rule → ValidationResult

/-- Embedding of `DaytonaValidator.validateRule` (`src/unnamed/part_003` lines 59-114):
static screen first (on reject, return a `security_issue` result without
touching the sandbox); then create a sandbox, syntax-check, run the
functional test, mapping any thrown error to an `error` result.  The second
component counts sandbox creations performed during the attempt. -/
def validateRule (sb : SandboxBehavior) (rule : Rule) : ValidationResult × Nat :=
  let security := checkSecurity rule.python_code
  if security.safe = false then
    ({ passed := false, security_issue := security.reason }, 0)
  else
    match sb.create with
    | Except.error e => ({ passed := false, error := some e }, 1)
    | Except.ok _ =>
        let synR := sb.checkSyn rule.python_code
        if synR.1 = false then
          ({ passed := false, syn_error := synR.2 }, 1)
        else
          let rt := sb.runTests rule
          if rt.passed = false then (rt, 1)
          else ({ passed := true, test_output := rt.test_output }, 1)

/-- A Python value occupying a date field of the security payload at the
rule-invocation boundary: either a JSON-decoded string or a `datetime`
object produced by `datetime.fromisoformat`. -/
inductive PyVal where
  | str (s : String)
  | datetime (y m d : Nat)
deriving DecidableEq, Repr

/-- Whether `y` is a Gregorian leap year. -/
def isLeap (y : Nat) : Bool :=
  y % 4 == 0 && (y % 100 != 0 || y % 400 == 0)

/-- Days in month `m` of year `y`. -/
def daysInMonth (y m : Nat) : Nat :=
  if m == 2 then (if isLeap y then 29 else 28)
  else if m == 4 || m == 6 || m == 9 || m == 11 then 30
  else 31

/-- Model of CPython's `datetime.fromisoformat` on the date-only
`YYYY-MM-DD` form (the only form the repository passes at this boundary:
`rules-executor.ts` and the validator fixture both use `YYYY-MM-DD`
strings); other inputs are treated as raising `ValueError` (`none`). -/
def fromisoformat (s : String) : Option (Nat × Nat × Nat) :=
  match s.data with
  | [y1, y2, y3, y4, h1, m1, m2, h2, d1, d2] =>
      if h1 = '-' && h2 = '-' &&
         ([y1, y2, y3, y4, m1, m2, d1, d2].all Char.isDigit) then
        let y := (y1.toNat - 48) * 1000 + (y2.toNat - 48) * 100 +
                 (y3.toNat - 48) * 10 + (y4.toNat - 48)
        let m := (m1.toNat - 48) * 10 + (m2.toNat - 48)
        let d := (d1.toNat - 48) * 10 + (d2.toNat - 48)
        if 1 ≤ m && m ≤ 12 && 1 ≤ d && d ≤ daysInMonth y m then some (y, m, d)
        else none
      else none
  | _ => none

/-- Embedding of `_parse_date` from the validator's functional-phase script
(`src/unnamed/part_003` lines 203-209): an ISO-parseable string becomes a
`datetime`; anything else is returned unchanged. -/
def parseDate (v : PyVal) : PyVal :=
  match v with
  | PyVal.str s =>
      match fromisoformat s with
      | some (y, m, d) => PyVal.datetime y m d
      | none => PyVal.str s
  | other => other

/-- The date-bearing part of the security payload at a rule-invocation
boundary (fields absent from the payload are `none`). -/
structure SecurityPy where
  ticker : String
  earnings_date : Option PyVal := none
  next_earnings_date : Option PyVal := none
  last_earnings_date : Option PyVal := none
deriving DecidableEq, Repr

/-- The validator's functional-phase preparation of the security payload
(`src/unnamed/part_003` lines 211-216): each of the three date keys present
in the payload is replaced by `_parse_date` of its value before `rule_fn`
is invoked. -/
def validatorPrepareSecurity (sec : SecurityPy) : SecurityPy :=
  { sec with
      earnings_date := sec.earnings_date.map parseDate,
      next_earnings_date := sec.next_earnings_date.map parseDate,
      last_earnings_date := sec.last_earnings_date.map parseDate }

/-- The `LocalRunner` (`PYTHON_RUNNER`, `rules-executor.ts` lines 10-30)
preparation of the security payload: `rule_fn(payload["employee"],
payload["security"], payload["date"])` passes the JSON-decoded security
through unchanged, so date fields stay ISO-8601 strings. -/
def localRunnerPrepareSecurity (sec : SecurityPy) : SecurityPy := sec

/-- The security of the validator's canonical fixture
(`src/unnamed/part_003` lines 171-179), date fields as the JSON-decoded
strings they are when `_parse_date` runs. -/
def canonicalSecurity : SecurityPy :=
  { ticker := "TSLA",
    earnings_date := some (PyVal.str "2025-11-20"),
    next_earnings_date := some (PyVal.str "2025-11-20"),
    last_earnings_date := some (PyVal.str "2025-08-15") }

/-- A demo employee record (`src/unnamed/part_004`): a required `id` plus
arbitrary further fields, carried opaquely. -/
structure DemoEmployee where
  id : String
  rest : List (String × String) := []
deriving DecidableEq, Repr

/-- Embedding of `getEmployeeById` (`src/unnamed/part_004` lines 48-60), over the
`demo_employees` list of the loaded demo data: `null` for an empty id,
otherwise the first employee whose uppercased id equals the trimmed,
uppercased query. -/
def getEmployeeById (employees : List DemoEmployee) (employeeId : String) :
    Option DemoEmployee :=
  if employeeId = "" then none
  else
    let normalized := jsToUpper (jsTrim employeeId)
    employees.find? (fun emp => jsToUpper emp.id == normalized)

/-! ### Lemmas about the compliance evaluator -/

theorem stepRule_skip (run : Rule → Except String RuleExecutionResult) (emp : Employee)
    (acc : ComplianceResult) (r : Rule) (h : ruleInvoked emp r = false) :
    stepRule run emp acc r = acc := by
  unfold stepRule
  unfold ruleInvoked at h
  cases hact : r.active with
  | false => simp [hact]
  | true =>
      cases hroles : r.applies_to_roles with
      | nil => rw [hact, hroles] at h; simp at h
      | cons a rest =>
          rw [hact, hroles] at h
          simp at h
          simp [hact, hroles, h]

theorem stepRule_invoked (run : Rule → Except String RuleExecutionResult) (emp : Employee)
    (acc : ComplianceResult) (r : Rule) (h : ruleInvoked emp r = true) :
    stepRule run emp acc r =
      (let acc1 : ComplianceResult :=
        { acc with rules_checked := acc.rules_checked ++ [r.rule_name] }
      match run r with
      | Except.ok execution =>
          if execution.allowed = false then
            { acc1 with
                allowed := false,
                reasons := acc1.reasons ++
                  (if isTruthy execution.reason then [execution.reason.getD ""] else []),
                policy_refs := acc1.policy_refs ++ [r.policy_reference] }
          else acc1
      | Except.error msg =>
          { acc1 with
              allowed := false,
              reasons := acc1.reasons ++
                ["Rule " ++ r.rule_name ++ " execution failed: " ++ msg],
              policy_refs := acc1.policy_refs ++ [r.policy_reference] }) := by
  unfold stepRule
  unfold ruleInvoked at h
  cases hact : r.active with
  | false => rw [hact] at h; simp at h
  | true =>
      cases hroles : r.applies_to_roles with
      | nil => simp [hact, hroles]
      | cons a rest =>
          rw [hact, hroles] at h
          simp at h
          simp [hact, hroles, h]

theorem stepRule_rules_checked (run : Rule → Except String RuleExecutionResult)
    (emp : Employee) (acc : ComplianceResult) (r : Rule) :
    (stepRule run emp acc r).rules_checked =
      acc.rules_checked ++ (if ruleInvoked emp r = true then [r.rule_name] else []) := by
  cases h : ruleInvoked emp r with
  | false => rw [stepRule_skip run emp acc r h]; simp
  | true =>
      rw [stepRule_invoked run emp acc r h]
      cases hrun : run r with
      | error msg => simp
      | ok execution =>
          cases hal : execution.allowed with
          | false => simp [hal]
          | true => simp [hal]

theorem stepRule_allowed (run : Rule → Except String RuleExecutionResult)
    (emp : Employee) (acc : ComplianceResult) (r : Rule) :
    (stepRule run emp acc r).allowed =
      (acc.allowed && !(ruleInvoked emp r && ruleBlocks run r)) := by
  cases h : ruleInvoked emp r with
  | false => rw [stepRule_skip run emp acc r h]; simp
  | true =>
      rw [stepRule_invoked run emp acc r h]
      cases hrun : run r with
      | error msg => simp [ruleBlocks, hrun]
      | ok execution =>
          cases hal : execution.allowed with
          | false => simp [ruleBlocks, hrun, hal]
          | true => simp [ruleBlocks, hrun, hal]

theorem stepRule_reasons_mono (run : Rule → Except String RuleExecutionResult)
    (emp : Employee) (acc : ComplianceResult) (r : Rule) (x : String)
    (hx : x ∈ acc.reasons) : x ∈ (stepRule run emp acc r).reasons := by
  cases h : ruleInvoked emp r with
  | false => rw [stepRule_skip run emp acc r h]; exact hx
  | true =>
      rw [stepRule_invoked run emp acc r h]
      cases hrun : run r with
      | error msg => exact List.mem_append_left _ hx
      | ok execution =>
          cases hal : execution.allowed with
          | false => simp [hal]; exact Or.inl hx
          | true => simp [hal]; exact hx

theorem stepRule_policy_refs_mono (run : Rule → Except String RuleExecutionResult)
    (emp : Employee) (acc : ComplianceResult) (r : Rule) (x : String)
    (hx : x ∈ acc.policy_refs) : x ∈ (stepRule run emp acc r).policy_refs := by
  cases h : ruleInvoked emp r with
  | false => rw [stepRule_skip run emp acc r h]; exact hx
  | true =>
      rw [stepRule_invoked run emp acc r h]
      cases hrun : run r with
      | error msg => exact List.mem_append_left _ hx
      | ok execution =>
          cases hal : execution.allowed with
          | false => simp [hal]; exact Or.inl hx
          | true => simp [hal]; exact hx

theorem stepRule_invoked_error (run : Rule → Except String RuleExecutionResult)
    (emp : Employee) (acc : ComplianceResult) (r : Rule) (msg : String)
    (h : ruleInvoked emp r = true) (herr : run r = Except.error msg) :
    stepRule run emp acc r =
      { allowed := false,
        reasons := acc.reasons ++ ["Rule " ++ r.rule_name ++ " execution failed: " ++ msg],
        policy_refs := acc.policy_refs ++ [r.policy_reference],
        rules_checked := acc.rules_checked ++ [r.rule_name] } := by
  rw [stepRule_invoked run emp acc r h]
  simp [herr]

theorem foldl_rules_checked (run : Rule → Except String RuleExecutionResult)
    (emp : Employee) :
    ∀ (rs : List Rule) (acc : ComplianceResult),
      (List.foldl (stepRule run emp) acc rs).rules_checked =
        acc.rules_checked ++ ((rs.filter (fun r => ruleInvoked emp r)).map (fun r => r.rule_name))
  | [], acc => by simp
  | r :: rs, acc => by
      rw [List.foldl_cons, foldl_rules_checked run emp rs, stepRule_rules_checked]
      cases h : ruleInvoked emp r with
      | false => simp [List.filter_cons, h]
      | true => simp [List.filter_cons, h]

theorem foldl_allowed (run : Rule → Except String RuleExecutionResult) (emp : Employee) :
    ∀ (rs : List Rule) (acc : ComplianceResult),
      (List.foldl (stepRule run emp) acc rs).allowed =
        (acc.allowed && !(rs.any (fun r => ruleInvoked emp r && ruleBlocks run r)))
  | [], acc => by simp
  | r :: rs, acc => by
      rw [List.foldl_cons, foldl_allowed run emp rs, stepRule_allowed]
      simp [List.any_cons, Bool.not_or, Bool.and_assoc]

theorem foldl_reasons_mono (run : Rule → Except String RuleExecutionResult)
    (emp : Employee) :
    ∀ (rs : List Rule) (acc : ComplianceResult) (x : String),
      x ∈ acc.reasons → x ∈ (List.foldl (stepRule run emp) acc rs).reasons
  | [], _, _, hx => hx
  | r :: rs, acc, x, hx => by
      rw [List.foldl_cons]
      exact foldl_reasons_mono run emp rs _ x (stepRule_reasons_mono run emp acc r x hx)

theorem foldl_policy_refs_mono (run : Rule → Except String RuleExecutionResult)
    (emp : Employee) :
    ∀ (rs : List Rule) (acc : ComplianceResult) (x : String),
      x ∈ acc.policy_refs → x ∈ (List.foldl (stepRule run emp) acc rs).policy_refs
  | [], _, _, hx => hx
  | r :: rs, acc, x, hx => by
      rw [List.foldl_cons]
      exact foldl_policy_refs_mono run emp rs _ x (stepRule_policy_refs_mono run emp acc r x hx)

theorem foldl_allowed_false (run : Rule → Except String RuleExecutionResult)
    (emp : Employee) (rs : List Rule) (acc : ComplianceResult)
    (h : acc.allowed = false) :
    (List.foldl (stepRule run emp) acc rs).allowed = false := by
  rw [foldl_allowed, h]
  simp

theorem foldl_error_mem (run : Rule → Except String RuleExecutionResult)
    (emp : Employee) :
    ∀ (rs : List Rule) (acc : ComplianceResult) (r : Rule) (msg : String),
      r ∈ rs → ruleInvoked emp r = true → run r = Except.error msg →
      (("Rule " ++ r.rule_name ++ " execution failed: " ++ msg) ∈
          (List.foldl (stepRule run emp) acc rs).reasons ∧
        r.policy_reference ∈ (List.foldl (stepRule run emp) acc rs).policy_refs ∧
        (List.foldl (stepRule run emp) acc rs).allowed = false)
  | [], _, _, _, hmem, _, _ => by cases hmem
  | r0 :: rs, acc, r, msg, hmem, hinv, herr => by
      rw [List.foldl_cons]
      rcases List.mem_cons.mp hmem with heq | htail
      · subst heq
        rw [stepRule_invoked_error run emp acc r msg hinv herr]
        refine ⟨?_, ?_, ?_⟩
        · exact foldl_reasons_mono run emp rs _ _ (by simp)
        · exact foldl_policy_refs_mono run emp rs _ _ (by simp)
        · exact foldl_allowed_false run emp rs _ rfl
      · exact foldl_error_mem run emp rs _ r msg htail hinv herr

/-! ### Claim C1 -/

/-- A rule in the C1 counterexample bundle: active, universal role scope. -/
def c1Rule : Rule :=
  { rule_id := "c1_rule",
    rule_name := "no_reason_rule",
    policy_reference := "POL-1",
    applies_to_roles := [],
    python_code := "def rule_fn(employee, security, trade_date): return denial" }

/-- C1 counterexample bundle: a single stored rule. -/
def c1Bundle : RulesData :=
  mkRulesData "Meridian" [c1Rule] 1 "2026-01-01T00:00:00Z" "2026-01"

/-- C1 counterexample employee. -/
def c1Emp : Employee := { id := "EMP001", role := "Analyst" }

/-- C1 counterexample bridge behavior: the rule's Python code prints
`{"allowed": false}` — a well-formed result that denies without giving a
reason. -/
def c1Py : Rule → PyOutcome :=
  fun _ => PyOutcome.out (some (JsonVal.obj [("allowed", JsonVal.bool false)]))

/-- C1 counterexample: when a rule's execution succeeds with
`allowed=false` and no `reason`, the verdict has `allowed=false` while
`reasons` is empty and no invoked rule raised — the claimed equivalence
`allowed=false ⇔ reasons non-empty ∨ some rule raised` fails left-to-right
at this input. -/
theorem claim_c1_counterexample :
    (checkCompliance (fun r => executeRule (c1Py r)) c1Emp (some c1Bundle)).allowed = false ∧
    (checkCompliance (fun r => executeRule (c1Py r)) c1Emp (some c1Bundle)).reasons = [] ∧
    anyInvokedRuleRaised (fun r => executeRule (c1Py r)) c1Emp c1Bundle.rules = false := by
  refine ⟨?_, ?_, ?_⟩ <;> rfl

/-- C1 (amended): `allowed=false` iff some invoked (active and
role-applicable) rule blocked — i.e. its execution either raised or returned
`allowed=false`.  (`reasons` may stay empty on a denial because a denying
rule's `reason` is optional and pushed only when truthy.) -/
theorem claim_c1_allowed_iff_blocked (run : Rule → Except String RuleExecutionResult)
    (employee : Employee) (stored : Option RulesData) :
    (checkCompliance run employee stored).allowed = false ↔
      (rulesOf stored).any (fun r => ruleInvoked employee r && ruleBlocks run r) = true := by
  cases stored with
  | none => simp [checkCompliance, rulesOf]
  | some bundle =>
      unfold checkCompliance rulesOf
      rw [foldl_allowed]
      simp

/-! ### Claim C3 -/

/-- C3: a rule is invoked exactly when it is active and its
`applies_to_roles` is empty or contains the employee's role as an exact
string; all applicable rules are evaluated in stored bundle order with no
short-circuit (the execution oracle `run` is arbitrary, so earlier denials
or raises cannot suppress later checks), and each invoked rule's
`rule_name` is appended to `rules_checked`. -/
theorem claim_c3_invocation (run : Rule → Except String RuleExecutionResult)
    (employee : Employee) (stored : Option RulesData) :
    (checkCompliance run employee stored).rules_checked =
      ((rulesOf stored).filter (fun r => ruleInvoked employee r)).map
        (fun r => r.rule_name) := by
  cases stored with
  | none => simp [checkCompliance, rulesOf]
  | some bundle =>
      unfold checkCompliance rulesOf
      rw [foldl_rules_checked]
      simp

/-! ### Claim C4 -/

/-- C4: a failing rule execution — transport error (`PyOutcome.fail`),
non-JSON stdout (`PyOutcome.out none`), or a JSON result whose `allowed`
property is absent — surfaces as an `Except.error` from `executeRule`, and
for every invoked rule whose execution errs, `checkCompliance` (which never
propagates the failure: it totally returns a `ComplianceResult`) sets
`allowed=false` and appends the synthetic reason
`"Rule <name> execution failed: <detail>"` and the rule's
`policy_reference`. -/
theorem claim_c4_failure_denies (py : Rule → PyOutcome) (employee : Employee)
    (bundle : RulesData) (rule : Rule) (msg : String)
    (hmem : rule ∈ bundle.rules) (hinv : ruleInvoked employee rule = true)
    (herr : executeRule (py rule) = Except.error msg) :
    ((checkCompliance (fun r => executeRule (py r)) employee (some bundle)).allowed = false ∧
     ("Rule " ++ rule.rule_name ++ " execution failed: " ++ msg) ∈
       (checkCompliance (fun r => executeRule (py r)) employee (some bundle)).reasons ∧
     rule.policy_reference ∈
       (checkCompliance (fun r => executeRule (py r)) employee (some bundle)).policy_refs) ∧
    (∀ m, executeRule (PyOutcome.fail m) = Except.error m) ∧
    executeRule (PyOutcome.out none) = Except.error "Python bridge returned invalid JSON" ∧
    (∀ fields : List (String × JsonVal), fields.lookup "allowed" = none →
      executeRule (PyOutcome.out (some (JsonVal.obj fields))) =
        Except.error "Rule result missing boolean \x27allowed\x27") := by
  refine ⟨?_, fun m => rfl, rfl, fun fields hf => ?_⟩
  · have h := foldl_error_mem (fun r => executeRule (py r)) employee bundle.rules
      { allowed := true, reasons := [], policy_refs := [], rules_checked := [] }
      rule msg hmem hinv herr
    exact ⟨h.2.2, h.1, h.2.1⟩
  · simp [executeRule, jsGetProp, hf]

/-- C4 fixture rule. -/
def c4Rule : Rule :=
  { rule_id := "c4_rule",
    rule_name := "earnings_blackout",
    policy_reference := "POL-7",
    applies_to_roles := ["Analyst"],
    python_code := "def rule_fn(employee, security, trade_date): return verdict" }

/-- C4 fixture bundle. -/
def c4Bundle : RulesData :=
  mkRulesData "Meridian" [c4Rule] 1 "2026-01-01T00:00:00Z" "2026-01"

/-- C4 fixture employee (role matches the rule's scope). -/
def c4Emp : Employee := { id := "EMP002", role := "Analyst" }

/-- C4 fixture bridge behavior: the Python bridge rejects (e.g. timeout). -/
def c4Py : Rule → PyOutcome := fun _ => PyOutcome.fail "Python process timed out after 10000ms"

/-- C4 witness: the theorem applied to a concrete invoked rule whose bridge
execution fails. -/
theorem claim_c4_witness :
    c4Rule ∈ c4Bundle.rules ∧ ruleInvoked c4Emp c4Rule = true ∧
    (checkCompliance (fun r => executeRule (c4Py r)) c4Emp (some c4Bundle)).allowed = false ∧
    ("Rule earnings_blackout execution failed: Python process timed out after 10000ms") ∈
      (checkCompliance (fun r => executeRule (c4Py r)) c4Emp (some c4Bundle)).reasons :=
  ⟨by decide, by decide,
   (claim_c4_failure_denies c4Py c4Emp c4Bundle c4Rule
      "Python process timed out after 10000ms" (by decide) (by decide) rfl).1.1,
   (claim_c4_failure_denies c4Py c4Emp c4Bundle c4Rule
      "Python process timed out after 10000ms" (by decide) (by decide) rfl).1.2.1⟩

/-! ### Lemmas about the refinement loop -/

theorem refineGo_count (validator : Nat → Rule → ValidationResult)
    (regen : Nat → GenerationContext → List Rule) (ts : Nat → String)
    (pid p f : String) :
    ∀ (rem attempt : Nat) (rule : Rule),
      (refineGo validator regen ts pid p f rule attempt rem).2 ≤ rem ∧
      (refineGo validator regen ts pid p f rule attempt rem).1.iterations =
        attempt + (refineGo validator regen ts pid p f rule attempt rem).2
  | 0, attempt, rule => by simp [refineGo]
  | rem + 1, attempt, rule => by
      rw [refineGo]
      dsimp only
      by_cases hp :
        (validator (attempt + 1) { rule with generation_attempt := attempt + 1 }).passed = true
      · simp [hp]
      · rw [if_neg hp]
        by_cases hrem : rem = 0
        · simp [hrem]
        · rw [if_neg hrem]
          split
          · simp
          · dsimp only
            constructor
            · exact Nat.succ_le_succ
                (refineGo_count validator regen ts pid p f rem (attempt + 1) _).1
            · rw [(refineGo_count validator regen ts pid p f rem (attempt + 1) _).2]
              omega

theorem refineGo_validated (validator : Nat → Rule → ValidationResult)
    (regen : Nat → GenerationContext → List Rule) (ts : Nat → String)
    (pid p f : String) :
    ∀ (rem attempt : Nat) (rule : Rule),
      rule.validation_history.length = attempt →
      rule.validation_history.map (fun e => e.attempt_number) = List.range' 1 attempt →
      ((refineGo validator regen ts pid p f rule attempt rem).1.validated = true →
        ((refineGo validator regen ts pid p f rule attempt rem).1.rule.validation_history.length =
            (refineGo validator regen ts pid p f rule attempt rem).1.rule.generation_attempt ∧
          (refineGo validator regen ts pid p f rule attempt rem).1.rule.validation_history.map
              (fun e => e.attempt_number) =
            List.range' 1
              (refineGo validator regen ts pid p f rule attempt rem).1.rule.validation_history.length ∧
          ∃ e, (refineGo validator regen ts pid p f rule attempt
              rem).1.rule.validation_history.getLast? = some e ∧ e.passed = true))
  | 0, attempt, rule => by
      intro h1 h2 hval
      simp [refineGo] at hval
  | rem + 1, attempt, rule => by
      intro h1 h2
      rw [refineGo]
      dsimp only
      by_cases hp :
        (validator (attempt + 1) { rule with generation_attempt := attempt + 1 }).passed = true
      · rw [if_pos hp]
        intro _
        refine ⟨by simp [h1], ?_, ?_⟩
        · simp only [List.map_append, h2, h1, List.length_append, List.map_cons, List.map_nil,
            List.length_cons, List.length_nil]
          rw [List.range'_concat]
          simp [mkHistoryEntry, Nat.add_comm]
        · refine ⟨mkHistoryEntry ts (attempt + 1)
            (validator (attempt + 1) { rule with generation_attempt := attempt + 1 }), ?_, ?_⟩
          · simp
          · simp [mkHistoryEntry, hp]
      · rw [if_neg hp]
        by_cases hrem : rem = 0
        · rw [if_pos hrem]
          intro hval
          simp at hval
        · rw [if_neg hrem]
          split
          · intro hval
            simp at hval
          · dsimp only
            refine refineGo_validated validator regen ts pid p f rem (attempt + 1) _ ?_ ?_
            · simp [h1]
            · simp only [List.map_append, h2, List.map_cons, List.map_nil]
              rw [List.range'_concat]
              simp [mkHistoryEntry, Nat.add_comm]

theorem runRules_mem (validator : Nat → Rule → ValidationResult)
    (regen : Nat → GenerationContext → List Rule) (ts : Nat → String)
    (maxIter : Nat) (p f : String) :
    ∀ (rs : List Rule) (r : Rule),
      r ∈ (runRules validator regen ts maxIter p f rs).1 →
      ∃ r0, (validateAndRefineRule validator regen ts maxIter r0 p f).1.validated = true ∧
        (validateAndRefineRule validator regen ts maxIter r0 p f).1.rule = r
  | [], r, hmem => by simp [runRules] at hmem
  | r0 :: rs, r, hmem => by
      rw [runRules] at hmem
      rcases List.mem_append.mp hmem with hhead | htail
      · cases hv : (validateAndRefineRule validator regen ts maxIter r0 p f).1.validated with
        | false => rw [hv] at hhead; simp at hhead
        | true =>
            rw [hv] at hhead
            simp at hhead
            exact ⟨r0, hv, hhead.symm⟩
      · exact runRules_mem validator regen ts maxIter p f rs r htail

/-! ### Claim C2 -/

/-- C2: every rule contained in a bundle persisted by the ingestion
pipeline has a final `validation_history` entry with `passed=true`, its
`validation_history.length` equals its `generation_attempt`, and the
entries are ordered by `attempt_number` as `1, 2, …` (i.e. the mapped
attempt numbers are exactly `[1..length]`). -/
theorem claim_c2_persisted_validated (validator : Nat → Rule → ValidationResult)
    (regen : Nat → GenerationContext → List Rule) (ts : Nat → String)
    (maxIter : Nat) (st : StorageState) (rulesDir : String) (initialRules : List Rule)
    (p f now ver : String) :
    ∀ r ∈ (processPolicy validator regen ts maxIter st rulesDir initialRules p f now ver).1.rules,
      r.validation_history.length = r.generation_attempt ∧
      r.validation_history.map (fun e => e.attempt_number) =
        List.range' 1 r.validation_history.length ∧
      ∃ e, r.validation_history.getLast? = some e ∧ e.passed = true := by
  intro r hr
  have hmem : r ∈ (runRules validator regen ts maxIter p f initialRules).1 := hr
  obtain ⟨r0, hv, hrule⟩ := runRules_mem validator regen ts maxIter p f initialRules r hmem
  have key := refineGo_validated validator regen ts r0.rule_id p f maxIter 0
    { r0 with validation_history := [] } rfl rfl hv
  rw [show (validateAndRefineRule validator regen ts maxIter r0 p f) =
        refineGo validator regen ts r0.rule_id p f
          { r0 with validation_history := [] } 0 maxIter from rfl] at hrule
  rw [hrule] at key
  exact key

/-- C2 fixture: the draft rule fed to the pipeline. -/
def c2Rule0 : Rule :=
  { rule_id := "c2_rule",
    rule_name := "preapproval",
    policy_reference := "POL-2",
    applies_to_roles := [],
    python_code := "def rule_fn(employee, security, trade_date): return verdict" }

/-- C2 fixture: a validator that passes on the first attempt. -/
def c2Validator : Nat → Rule → ValidationResult := fun _ _ => { passed := true }

/-- C2 fixture: a regenerator that is never consulted. -/
def c2Regen : Nat → GenerationContext → List Rule := fun _ _ => []

/-- C2 fixture clock. -/
def c2Ts : Nat → String := fun _ => "2026-01-01T00:00:00Z"

/-- C2 fixture: the bundle persisted by a concrete pipeline run. -/
def c2Out : RulesData :=
  (processPolicy c2Validator c2Regen c2Ts 5 { cache := [], disk := [] } "rules/dynamic"
    [c2Rule0] "policy" "Meridian" "2026-01-01T00:00:00Z" "2026-01").1

/-- C2 fixture: the rule as it appears in the persisted bundle. -/
def c2OutRule : Rule :=
  { c2Rule0 with
      generation_attempt := 1,
      validation_history :=
        [{ attempt_number := 1, passed := true, timestamp := "2026-01-01T00:00:00Z" }] }

/-- C2 witness: the theorem applied to the rule persisted by a concrete
pipeline run. -/
theorem claim_c2_witness :
    c2OutRule ∈ c2Out.rules ∧
    c2OutRule.validation_history.length = c2OutRule.generation_attempt :=
  ⟨by decide,
   (claim_c2_persisted_validated c2Validator c2Regen c2Ts 5 { cache := [], disk := [] }
      "rules/dynamic" [c2Rule0] "policy" "Meridian" "2026-01-01T00:00:00Z" "2026-01"
      c2OutRule (by decide)).1⟩

/-! ### Claim C5 -/

/-- C5: the refinement loop terminates after at most `maxIterationsPerRule`
(default 5) validator calls, and the `iterations` count it returns equals
the number of validator calls performed. -/
theorem claim_c5_bounded (validator : Nat → Rule → ValidationResult)
    (regen : Nat → GenerationContext → List Rule) (ts : Nat → String)
    (maxIterationsPerRule : Nat) (initialRule : Rule) (policyText firmName : String) :
    (validateAndRefineRule validator regen ts maxIterationsPerRule initialRule
        policyText firmName).2 ≤ maxIterationsPerRule ∧
    (validateAndRefineRule validator regen ts maxIterationsPerRule initialRule
        policyText firmName).1.iterations =
      (validateAndRefineRule validator regen ts maxIterationsPerRule initialRule
        policyText firmName).2 ∧
    defaultMaxIterationsPerRule = 5 := by
  have h := refineGo_count validator regen ts initialRule.rule_id policyText firmName
    maxIterationsPerRule 0 { initialRule with validation_history := [] }
  exact ⟨h.1, by simpa using h.2, rfl⟩

/-! ### Claim C6 -/

theorem checkSecurity_eq (code : String) :
    checkSecurity code =
      (match DANGEROUS_SNIPPETS.find?
          (fun s => listIsSubstr (jsToLower s).data (jsToLower code).data) with
      | some snippet =>
          { safe := false, reason := some ("Code contains insecure pattern: " ++ snippet) }
      | none => { safe := true }) := rfl

/-- C6: the static screener rejects exactly when the lowercased source
contains one of the fixed denylist substrings; a rejection carries a reason
naming the matched pattern, and `validateRule` then returns the
security-rejected outcome having created no sandbox in that attempt. -/
theorem claim_c6_screener :
    (∀ code : String, (checkSecurity code).safe = false ↔
      ∃ s ∈ DANGEROUS_SNIPPETS,
        listIsSubstr (jsToLower s).data (jsToLower code).data = true) ∧
    (∀ code : String, (checkSecurity code).safe = false →
      ∃ s ∈ DANGEROUS_SNIPPETS,
        (checkSecurity code).reason = some ("Code contains insecure pattern: " ++ s)) ∧
    (∀ (sb : SandboxBehavior) (rule : Rule), (checkSecurity rule.python_code).safe = false →
      validateRule sb rule =
        ({ passed := false, security_issue := (checkSecurity rule.python_code).reason }, 0)) := by
  refine ⟨?_, ?_, ?_⟩
  · intro code
    rw [checkSecurity_eq]
    cases hf : DANGEROUS_SNIPPETS.find?
        (fun s => listIsSubstr (jsToLower s).data (jsToLower code).data) with
    | none =>
        simp only
        constructor
        · intro h; cases h
        · rintro ⟨s, hs, hsub⟩
          exact absurd hsub (by simpa using List.find?_eq_none.mp hf s hs)
    | some snippet =>
        simp only
        constructor
        · intro _
          exact ⟨snippet, List.mem_of_find?_eq_some hf, by simpa using List.find?_some hf⟩
        · intro _; trivial
  · intro code h
    rw [checkSecurity_eq] at h ⊢
    cases hf : DANGEROUS_SNIPPETS.find?
        (fun s => listIsSubstr (jsToLower s).data (jsToLower code).data) with
    | none => rw [hf] at h; cases h
    | some snippet =>
        exact ⟨snippet, List.mem_of_find?_eq_some hf, rfl⟩
  · intro sb rule h
    unfold validateRule
    dsimp only
    rw [if_pos h]

/-- C6 fixture: a draft whose code hits the `import os` denylist entry. -/
def c6Rule : Rule :=
  { rule_id := "c6_rule",
    rule_name := "bad_rule",
    policy_reference := "POL-3",
    applies_to_roles := [],
    python_code := "import os\ndef rule_fn(employee, security, trade_date): return verdict" }

/-- C6 fixture: a sandbox oracle (never consulted on rejection). -/
def c6Sb : SandboxBehavior :=
  { create := Except.ok 0,
    checkSyn := fun _ => (true, none),
    runTests := fun _ => { passed := true } }

/-- C6 witness: the theorem applied to a concrete screened-out rule — the
attempt provisions zero sandboxes. -/
theorem claim_c6_witness :
    (checkSecurity c6Rule.python_code).safe = false ∧
    validateRule c6Sb c6Rule =
      ({ passed := false, security_issue := (checkSecurity c6Rule.python_code).reason }, 0) :=
  ⟨by decide, claim_c6_screener.2.2 c6Sb c6Rule (by decide)⟩

/-! ### Claim C7 -/

/-- C7 counterexample: at the validator's functional-phase boundary the
canonical fixture's `earnings_date`, which enters as the ISO string
`"2025-11-20"`, is handed to the rule callable as a `datetime` object, not
as a string — refuting the claim that both rule-invocation boundaries pass
date fields as ISO-8601 strings with parsing left to the rule code. -/
theorem claim_c7_counterexample :
    canonicalSecurity.earnings_date = some (PyVal.str "2025-11-20") ∧
    (validatorPrepareSecurity canonicalSecurity).earnings_date =
      some (PyVal.datetime 2025 11 20) ∧
    (validatorPrepareSecurity canonicalSecurity).earnings_date ≠
      some (PyVal.str "2025-11-20") := by
  refine ⟨rfl, by decide, by decide⟩

/-- C7 (amended): the LocalRunner boundary passes the security payload —
date fields included — to the rule unchanged (ISO-8601 strings stay
strings), while the validator's functional phase pre-parses each present
date field, replacing an ISO-parseable string by a `datetime` object and
leaving unparseable strings unchanged. -/
theorem claim_c7_date_boundaries (sec : SecurityPy) (s : String) :
    localRunnerPrepareSecurity sec = sec ∧
    (validatorPrepareSecurity sec).earnings_date = sec.earnings_date.map parseDate ∧
    (validatorPrepareSecurity sec).next_earnings_date = sec.next_earnings_date.map parseDate ∧
    (validatorPrepareSecurity sec).last_earnings_date = sec.last_earnings_date.map parseDate ∧
    (parseDate (PyVal.str s) = PyVal.str s ↔ fromisoformat s = none) ∧
    (∀ y m d, fromisoformat s = some (y, m, d) →
      parseDate (PyVal.str s) = PyVal.datetime y m d) := by
  refine ⟨rfl, rfl, rfl, rfl, ?_, ?_⟩
  · cases h : fromisoformat s with
    | none => simp [parseDate, h]
    | some v =>
        rcases v with ⟨y, m, d⟩
        simp [parseDate, h]
  · intro y m d h
    simp [parseDate, h]

/-- C7 amended-claim witness: a concrete parseable date string taken from
the canonical fixture. -/
theorem claim_c7_date_boundaries_witness :
    fromisoformat "2025-08-15" = some (2025, 8, 15) ∧
    parseDate (PyVal.str "2025-08-15") = PyVal.datetime 2025 8 15 :=
  ⟨by decide,
   (claim_c7_date_boundaries canonicalSecurity "2025-08-15").2.2.2.2.2 2025 8 15 (by decide)⟩

/-! ### Claim C8 -/

/-- C8 counterexample: a concrete save performs exactly a directory ensure
followed by a single direct write of the full document to the firm's final
path — there is no write to a temporary location and no rename, refuting
the claimed write-then-rename mechanism. -/
theorem claim_c8_counterexample :
    countRenames (saveRules { cache := [], disk := [] } "rules/dynamic" "Meridian" [] 0
        "2026-01-01T00:00:00Z" "2026-01").2.2 = 0 ∧
    (saveRules { cache := [], disk := [] } "rules/dynamic" "Meridian" [] 0
        "2026-01-01T00:00:00Z" "2026-01").2.2 =
      [FsOp.mkdir "rules/dynamic",
       FsOp.write "rules/dynamic/meridian_rules.json"
         (mkRulesData "Meridian" [] 0 "2026-01-01T00:00:00Z" "2026-01")] := by
  refine ⟨rfl, by decide⟩

/-- C8 (amended): every save ensures the target directory and then writes
the serialized bundle directly to the firm's file path in a single write,
with no temporary file and no rename; the in-process reader (`loadRules`)
subsequently observes exactly the complete saved document (crash-atomicity
via write-then-rename is not implemented). -/
theorem claim_c8_direct_write (st : StorageState) (rulesDir firmName : String)
    (rules : List Rule) (totalIterations : Nat) (now ver : String) :
    (saveRules st rulesDir firmName rules totalIterations now ver).2.2 =
      [FsOp.mkdir (dirnameOf (getFilePath rulesDir firmName)),
       FsOp.write (getFilePath rulesDir firmName)
         (mkRulesData firmName rules totalIterations now ver)] ∧
    countRenames (saveRules st rulesDir firmName rules totalIterations now ver).2.2 = 0 ∧
    (loadRules (saveRules st rulesDir firmName rules totalIterations now ver).2.1
        rulesDir firmName).1 =
      some (saveRules st rulesDir firmName rules totalIterations now ver).1 := by
  refine ⟨rfl, rfl, ?_⟩
  simp [saveRules, loadRules, List.lookup]

/-! ### Claim C9 -/

/-- C9: `saveRules` followed by `loadRules` for the same firm name returns
exactly the bundle that the save returned (full field equality, hence in
particular field equality modulo `last_updated`): the save populates the
cache under the original firm name and the load is served from it. -/
theorem claim_c9_save_load_roundtrip (st : StorageState) (rulesDir firmName : String)
    (rules : List Rule) (totalIterations : Nat) (now ver : String) :
    (loadRules (saveRules st rulesDir firmName rules totalIterations now ver).2.1
        rulesDir firmName).1 =
      some (saveRules st rulesDir firmName rules totalIterations now ver).1 := by
  simp [saveRules, loadRules, List.lookup]

/-! ### Claim C10 -/

/-- C10: employee lookup is whitespace- and case-insensitive — the lookup
returns `none` exactly when the id string is empty or no demo employee's id
matches the trimmed, uppercased query case-insensitively; any returned
employee matches it; and two non-empty id strings equal after trimming and
uppercasing resolve to the same result. -/
theorem claim_c10_employee_lookup (employees : List DemoEmployee) (s : String) :
    (getEmployeeById employees s = none ↔
      (s = "" ∨ ∀ e ∈ employees, jsToUpper e.id ≠ jsToUpper (jsTrim s))) ∧
    (∀ e, getEmployeeById employees s = some e →
      e ∈ employees ∧ jsToUpper e.id = jsToUpper (jsTrim s)) ∧
    (∀ s2 : String, s ≠ "" → s2 ≠ "" → jsToUpper (jsTrim s) = jsToUpper (jsTrim s2) →
      getEmployeeById employees s = getEmployeeById employees s2) := by
  refine ⟨?_, ?_, ?_⟩
  · by_cases hs : s = ""
    · simp [getEmployeeById, hs]
    · rw [getEmployeeById, if_neg hs]
      dsimp only
      constructor
      · intro h
        right
        intro e he
        simpa using List.find?_eq_none.mp h e he
      · intro h
        rcases h with h | h
        · exact absurd h hs
        · apply List.find?_eq_none.mpr
          intro e he
          simpa using h e he
  · intro e he
    rw [getEmployeeById] at he
    by_cases hs : s = ""
    · rw [if_pos hs] at he; cases he
    · rw [if_neg hs] at he
      dsimp only at he
      exact ⟨List.mem_of_find?_eq_some he, by simpa using List.find?_some he⟩
  · intro s2 hs hs2 heq
    rw [getEmployeeById, getEmployeeById, if_neg hs, if_neg hs2]
    dsimp only
    rw [heq]

/-- C10 fixture: the demo employee directory. -/
def c10Employees : List DemoEmployee :=
  [{ id := "EMP001" }, { id := "EMP002" }, { id := "EMP003" }]

/-- C10 witness: two ids differing only in case and surrounding whitespace
resolve to the same employee. -/
theorem claim_c10_witness :
    getEmployeeById c10Employees " emp002 " = getEmployeeById c10Employees "EMP002" ∧
    getEmployeeById c10Employees "EMP002" = some { id := "EMP002" } :=
  ⟨(claim_c10_employee_lookup c10Employees " emp002 ").2.2 "EMP002"
      (by decide) (by decide) (by decide),
   by decide⟩

end Chatbot
